import Mathlib

/-!
# SAMAuth4OpenVPN

A shallow embedding of `SAMAuth4OpenVPN.cpp` and the properties of its
authentication pipeline.

The program is a thin layer over the Win32 API.  Everything the operating
system decides (the environment block, the outcome of `LogonUser`, the reply
of `NetUserGetLocalGroups`, the local time, whether `CreateFile` yields a
handle, the bytes found in uninitialised stack buffers) is collected in the
record `Host`.  The program itself is translated function by function
(`wmain`, `ValidateCredentials`, `IsMemberOfGroup`, `Log`) with explicit state
passing: the state carries the global `bLogging`, the thread's last-error
value and the list of host calls made so far.  A formatted string that does
not fit the array `Log` formats it into is recorded in that list as an
overrun.

A NUL-terminated wide string is represented by the list of its UTF-16 code
units, the terminator excluded; a narrow string by the list of its bytes.
-/

namespace SAMAuth

/-! ## Strings and the C runtime -/

/-- Contents of a NUL-terminated `WCHAR` string: its UTF-16 code units. -/
abbrev WStr := List Nat

/-- The wide literal `L"..."` for an ASCII literal. -/
def L (s : String) : WStr := s.toList.map Char.toNat

/-- In the "C" locale (the program never calls `setlocale`) `towlower` folds
exactly the letters `A`..`Z`. -/
def towlower (c : Nat) : Nat := if 65 ≤ c ∧ c ≤ 90 then c + 32 else c

/-- CRT `_wcsicmp`: compares the lowercase versions of two wide strings code
unit by code unit.  The result is negative, zero or positive as the first
string is less than, equal to or greater than the second; a string that ends
first is the smaller one. -/
def _wcsicmp : WStr → WStr → Int
  | [], [] => 0
  | [], _ :: _ => -1
  | _ :: _, [] => 1
  | a :: as, b :: bs =>
      if towlower a = towlower b then _wcsicmp as bs
      else if towlower a < towlower b then -1 else 1

/-- The sort key of a string for a comparison that ignores case: the
weights of its code units, without those of weight 0, which the comparison
ignores. -/
def lstrcmpi.key (weight : Nat → Nat) (s : WStr) : List Nat :=
  (s.map weight).filter (fun k => k ≠ 0)

/-- Order of two sort keys: negative, zero or positive; a key that ends first
is the smaller one. -/
def lstrcmpi.order : List Nat → List Nat → Int
  | [], [] => 0
  | [], _ :: _ => -1
  | _ :: _, [] => 1
  | a :: as, b :: bs =>
      if a = b then lstrcmpi.order as bs
      else if a < b then -1 else 1

/-- Win32 `lstrcmpi`: "The function calls CompareStringEx, using the current
thread locale", without regard to case.  This is a linguistic comparison: the
sort tables of the locale give each code unit a weight, letters that differ
only in case have the same weight, and a code unit without weight (the soft
hyphen U+00AD is one) is ignored.  The tables are data of the host, passed as
`weight`.  The several levels of the real tables (diacritics, the word sort of
hyphen and apostrophe) are folded into the one weight; they play no role when
one of the strings is empty, the only use the program makes of the function. -/
def lstrcmpi (weight : Nat → Nat) (a b : WStr) : Int :=
  lstrcmpi.order (lstrcmpi.key weight a) (lstrcmpi.key weight b)

/-- An argument of a `printf`-style call. -/
inductive Arg where
  | str (s : WStr)
  | int (i : Int)
  deriving DecidableEq, Repr

/-- Decimal digits of a natural number, as character codes. -/
def digits (n : Nat) : List Nat := (Nat.toDigits 10 n).map Char.toNat

/-- Conversion `%i` / `%d`: signed decimal. -/
def fmtInt (i : Int) : List Nat :=
  if i < 0 then 45 :: digits i.natAbs else digits i.natAbs

/-- Conversion `%02d`: signed decimal, padded with zeros to at least two
characters. -/
def fmtInt02 (i : Int) : List Nat :=
  if 0 ≤ i ∧ i < 10 then 48 :: fmtInt i else fmtInt i

/-- The `printf` family (`vswprintf`, `wsprintf`, `sprintf`) restricted to
the conversions the program uses: `%s` (a wide string for the wide functions),
`%i`, and `%02d`.  Every other character of the format is copied. -/
def format : List Char → List Arg → List Nat
  | [], _ => []
  | '%' :: 's' :: rest, Arg.str s :: args => s ++ format rest args
  | '%' :: 'i' :: rest, Arg.int i :: args => fmtInt i ++ format rest args
  | '%' :: '0' :: '2' :: 'd' :: rest, Arg.int i :: args => fmtInt02 i ++ format rest args
  | c :: rest, args => c.toNat :: format rest args

/-- A `DWORD` read through `%i` is printed as a 32-bit signed integer. -/
def toInt32 (d : Nat) : Int :=
  if d % 2 ^ 32 < 2 ^ 31 then (d % 2 ^ 32 : Nat) else ((d % 2 ^ 32 : Nat) : Int) - 2 ^ 32

/-- The code page conversion `WideCharToMultiByte(CP_UTF8, ...)` of one
Unicode code point. -/
def utf8 (cp : Nat) : List Nat :=
  if cp < 0x80 then [cp]
  else if cp < 0x800 then [0xC0 + cp / 64, 0x80 + cp % 64]
  else if cp < 0x10000 then [0xE0 + cp / 4096, 0x80 + cp / 64 % 64, 0x80 + cp % 64]
  else [0xF0 + cp / 262144, 0x80 + cp / 4096 % 64, 0x80 + cp / 64 % 64, 0x80 + cp % 64]

/-- A high (leading) surrogate code unit. -/
def isHighSurrogate (c : Nat) : Bool := 0xD800 ≤ c && c < 0xDC00

/-- A low (trailing) surrogate code unit. -/
def isLowSurrogate (c : Nat) : Bool := 0xDC00 ≤ c && c < 0xE000

/-- Win32 `WideCharToMultiByte(CP_UTF8, 0, buf, -1, ...)`: the UTF-8 bytes of
a UTF-16 string (terminator excluded).  A surrogate pair is one code point; a
surrogate without its partner is converted to U+FFFD. -/
def WideCharToMultiByte : WStr → List Nat
  | [] => []
  | [c] => if isHighSurrogate c || isLowSurrogate c then utf8 0xFFFD else utf8 c
  | c :: d :: rest =>
      if isHighSurrogate c && isLowSurrogate d then
        utf8 (0x10000 + (c - 0xD800) * 1024 + (d - 0xDC00)) ++ WideCharToMultiByte rest
      else if isHighSurrogate c || isLowSurrogate c then
        utf8 0xFFFD ++ WideCharToMultiByte (d :: rest)
      else utf8 c ++ WideCharToMultiByte (d :: rest)

/-- Win32 `lstrlenA`: the number of bytes before the terminator. -/
def lstrlenA (s : List Nat) : Nat := s.length

/-! ## Constants -/

/-- Line 32. -/
def EXIT_SUCCESS : Int := 0

/-- Line 37. -/
def EXIT_FAILURE : Int := 1

/-- Line 42. -/
def DEFAULT_GROUPNAME : WStr := L "VPN Users"

/-- Line 48. -/
def ENV_OPENVPN_USERNAME : WStr := L "username"

/-- Line 49. -/
def ENV_OPENVPN_PASSWORD : WStr := L "password"

/-- Windows SDK, `lmcons.h`: maximum user name length. -/
def UNLEN : Nat := 256

/-- Windows SDK, `lmcons.h`: maximum password length. -/
def PWLEN : Nat := 256

/-- Windows SDK, `winerror.h`. -/
def ERROR_SUCCESS : Nat := 0

/-- Windows SDK, `winerror.h`: "The system could not find the environment
option that was entered." -/
def ERROR_ENVVAR_NOT_FOUND : Nat := 203

/-- Windows SDK, `lmerr.h`. -/
def NERR_Success : Nat := 0

/-- Windows SDK, `minwindef.h`. -/
def MAX_PATH : Nat := 260

/-- C runtime, `stdlib.h`. -/
def _MAX_FNAME : Nat := 256

/-! ## The host -/

/-- Win32 `SYSTEMTIME`, the fields the program reads; each is a `WORD`. -/
structure SYSTEMTIME where
  wYear : Fin 65536
  wMonth : Fin 65536
  wDay : Fin 65536
  wHour : Fin 65536
  wMinute : Fin 65536
  wSecond : Fin 65536
  deriving DecidableEq, Repr

/-- What `LogonUser` does.  On failure it returns zero and sets the thread's
last-error value to the failure code.  On success it returns nonzero; the
Win32 contract does not say what the last-error value is then, so the host
chooses: `none` leaves it as it was, `some e` sets it to `e`. -/
inductive LogonOutcome where
  | success (lastErrorAfter : Option Nat)
  | failure (code : Nat)
  deriving DecidableEq, Repr

/-- What `NetUserGetLocalGroups` hands back at level 0: the status, and the
buffer pointer `pBuf`, either `NULL` or an array of `LOCALGROUP_USERS_INFO_0`
of which `lgrui0_name` is kept, together with the count `dwEntriesRead`. -/
structure LocalGroupsReply where
  nStatus : Nat
  pBuf : Option (List WStr)
  dwEntriesRead : Nat
  deriving DecidableEq, Repr

/-- Everything the operating system decides during one run. -/
structure Host where
  /-- The environment block of the process. -/
  env : WStr → Option WStr
  /-- The last-error value of the thread when `wmain` starts. -/
  initialLastError : Nat
  /-- Content of the uninitialised stack array `lpszUsername`, read as a string. -/
  uninitUsername : WStr
  /-- Content of the uninitialised stack array `lpszPassword`, read as a string. -/
  uninitPassword : WStr
  /-- Outcome of `CreateDirectory(path, NULL)`: `none` when the directory is
  created, `some e` when the call fails with last-error `e`. -/
  createDirectory : WStr → Option Nat
  /-- Outcome of `LogonUser(user, domain, password, LOGON32_LOGON_NETWORK, ...)`. -/
  logonUser : WStr → WStr → WStr → LogonOutcome
  /-- Reply of `NetUserGetLocalGroups(NULL, user, 0, 0, ...)`. -/
  localGroups : WStr → LocalGroupsReply
  /-- Result of `GetLocalTime`. -/
  localTime : SYSTEMTIME
  /-- Whether `CreateFile(name, FILE_APPEND_DATA, ..., OPEN_ALWAYS, ...)` returns
  a valid handle. -/
  createFile : WStr → Bool
  /-- The weight the sort tables of the thread locale give a code unit when
  case is ignored; 0 for a code unit that linguistic comparisons ignore. -/
  sortWeight : Nat → Nat

/-- A call observed during a run: the Win32 calls, and the calls of the
program's own three functions with their arguments. -/
inductive Event where
  | CreateDirectory (lpPathName : WStr)
  | GetEnvironmentVariable (lpName : WStr) (nSize : Nat)
  | ValidateCredentials (lpszUsername lpszPassword : WStr)
  | LogonUser (lpszUsername lpszDomain lpszPassword : WStr)
  | CloseHandle
  | IsMemberOfGroup (lpszUsername lpszGroup : WStr)
  | NetUserGetLocalGroups (username : WStr)
  | NetApiBufferFree
  | Log (lpszDir : WStr) (fmt : List Char) (args : List Arg)
  | GetLocalTime
  | CreateFile (lpFileName : WStr)
  | WriteFile (lpFileName : WStr) (bytes : List Nat)
  /-- Not a call: a formatted string did not fit its array.  From here on the
  behaviour of the real program is undefined. -/
  | Overrun
  deriving DecidableEq, Repr

/-- The mutable state of a run. -/
structure State where
  /-- The global `bLogging` (line 55). -/
  bLogging : Bool
  /-- The thread's last-error value, as `GetLastError` reports it. -/
  lastError : Nat
  /-- The calls made so far, oldest first. -/
  trace : List Event
  deriving DecidableEq, Repr

/-- Records a call. -/
def State.emit (s : State) (e : Event) : State := { s with trace := s.trace ++ [e] }

/-- Win32 `CreateDirectory(lpPathName, NULL)`. -/
def CreateDirectory (h : Host) (lpPathName : WStr) (s : State) : State :=
  let s := s.emit (.CreateDirectory lpPathName)
  match h.createDirectory lpPathName with
  | none => s
  | some e => { s with lastError := e }

/-- Win32 `GetEnvironmentVariable(lpName, lpBuffer, nSize)`.  A variable that
is not there gives 0 and last-error `ERROR_ENVVAR_NOT_FOUND`.  A value that
fits with its terminator is copied and its length is returned.  Otherwise the
return value is the size needed, terminator included, and the content of the
buffer is undefined: it is read here as `stale`, what the buffer held. -/
def GetEnvironmentVariable (h : Host) (lpName : WStr) (stale : WStr) (nSize : Nat)
    (s : State) : Nat × WStr × State :=
  let s := s.emit (.GetEnvironmentVariable lpName nSize)
  match h.env lpName with
  | none => (0, stale, { s with lastError := ERROR_ENVVAR_NOT_FOUND })
  | some v =>
      if v.length < nSize then (v.length, v, s)
      else (v.length + 1, stale, s)

/-! ## The program -/

/-- Lines 111–118.  The return value of `LogonUser` is not looked at: the
result is what `GetLastError` reports after the call. -/
def ValidateCredentials (h : Host) (lpszUsername lpszPassword : WStr) (s : State) :
    Nat × State :=
  let s := s.emit (.ValidateCredentials lpszUsername lpszPassword)
  let s := s.emit (.LogonUser lpszUsername (L ".") lpszPassword)
  let s : State :=
    match h.logonUser lpszUsername (L ".") lpszPassword with
    | .success none => s
    | .success (some e) => { s with lastError := e }
    | .failure e => { s with lastError := e }
  let dwRet := s.lastError
  let s := s.emit .CloseHandle
  (dwRet, s)

/-- Lines 143–150: the loop over the entries of the buffer, left at the first
entry that compares equal. -/
def IsMemberOfGroup.scan (lpszGroup : WStr) : List WStr → Bool
  | [] => false
  | lgrui0_name :: rest =>
      if _wcsicmp lpszGroup lgrui0_name = 0 then true
      else IsMemberOfGroup.scan lpszGroup rest

/-- Lines 132–156.  The loop visits the first `dwEntriesRead` entries of the
buffer, which holds that many. -/
def IsMemberOfGroup (h : Host) (lpszUsername lpszGroup : WStr) (s : State) :
    Bool × State :=
  let s := s.emit (.IsMemberOfGroup lpszUsername lpszGroup)
  let s := s.emit (.NetUserGetLocalGroups lpszUsername)
  let reply := h.localGroups lpszUsername
  let bRet : Bool :=
    if reply.nStatus = NERR_Success then
      match reply.pBuf with
      | some pTmpBuf => IsMemberOfGroup.scan lpszGroup (pTmpBuf.take reply.dwEntriesRead)
      | none => false
    else false
  let s := match reply.pBuf with
    | some _ => s.emit .NetApiBufferFree
    | none => s
  (bRet, s)

/-- Line 176: the file name `wsprintf` formats into `name`. -/
def Log.name (h : Host) (lpszDir : WStr) : WStr :=
  format "%s/%02d-%02d-%02d.log".toList
    [.str lpszDir, .int h.localTime.wDay.val, .int h.localTime.wMonth.val,
      .int h.localTime.wYear.val]

/-- Line 189: the time stamp `sprintf` formats into `timePrefix`. -/
def Log.timeStamp (h : Host) : List Nat :=
  format "%02d:%02d:%02d: ".toList
    [.int h.localTime.wHour.val, .int h.localTime.wMinute.val, .int h.localTime.wSecond.val]

/-- Lines 166–196.  `vswprintf` writes into `buf[4096]` and `wsprintf` into
`name[MAX_PATH + _MAX_FNAME]` without checking: a string that does not fit
with its terminator overruns the array, which is recorded as `Overrun`, and
the model of `Log` stops there.  `timePrefix[128]` cannot be overrun: three
`WORD`s take at most 19 characters. -/
def Log (h : Host) (lpszDir : WStr) (fmt : List Char) (args : List Arg) (s : State) :
    State :=
  let s := s.emit (.Log lpszDir fmt args)
  if !s.bLogging then s
  else
    let s := s.emit .GetLocalTime
    let buf := format fmt args
    if 4096 ≤ buf.length then s.emit .Overrun
    else
      let name := Log.name h lpszDir
      if MAX_PATH + _MAX_FNAME ≤ name.length then s.emit .Overrun
      else
        let s := s.emit (.CreateFile name)
        if !h.createFile name then s
        else
          let lpszUTF8 := WideCharToMultiByte buf
          let len := lpszUTF8.length + 1
          let s :=
            if len > 0 then
              let timeStamp := Log.timeStamp h
              let s := s.emit (.WriteFile name (timeStamp.take (lstrlenA timeStamp)))
              let s := s.emit (.WriteFile name (lpszUTF8.take (lstrlenA lpszUTF8)))
              s.emit (.WriteFile name ((L "\r\n").take (lstrlenA (L "\r\n"))))
            else s
          s.emit .CloseHandle

/-- Lines 61–63. -/
def lpszGroupName (argv : List WStr) : WStr :=
  if h : 1 < argv.length then argv[1] else DEFAULT_GROUPNAME

/-- Line 64. -/
def bCheckGroup (h : Host) (argv : List WStr) : Int :=
  lstrcmpi h.sortWeight (L "") (lpszGroupName argv)

/-- Line 66: the value stored in `bLogging`. -/
def bLoggingFlag (argv : List WStr) : Bool :=
  if h : 2 < argv.length then decide (_wcsicmp argv[2] (L "false") ≠ 0) else false

/-- Lines 67–69. -/
def lpszLogDir (argv : List WStr) : WStr :=
  if h : 3 < argv.length then argv[3] else L "."

/-- Lines 66–73: the state when the environment is about to be read. -/
def startup (h : Host) (argv : List WStr) : State :=
  let s : State := { bLogging := bLoggingFlag argv, lastError := h.initialLastError, trace := [] }
  if 3 < argv.length then CreateDirectory h (lpszLogDir argv) s else s

/-- What lines 74–75 leave behind. -/
structure Credentials where
  /-- The value of the condition of the `if`: one of the calls returned 0. -/
  failed : Bool
  lpszUsername : WStr
  lpszPassword : WStr
  state : State

/-- Lines 74–75: the condition of the `if`; the second call is made only when
the first returned nonzero. -/
def readCredentials (h : Host) (s : State) : Credentials :=
  let r1 := GetEnvironmentVariable h ENV_OPENVPN_USERNAME h.uninitUsername UNLEN s
  if r1.1 = 0 then
    { failed := true, lpszUsername := r1.2.1, lpszPassword := h.uninitPassword, state := r1.2.2 }
  else
    let r2 := GetEnvironmentVariable h ENV_OPENVPN_PASSWORD h.uninitPassword PWLEN r1.2.2
    { failed := decide (r2.1 = 0), lpszUsername := r1.2.1, lpszPassword := r2.2.1,
      state := r2.2.2 }

/-- Lines 81–97. -/
def authenticate (h : Host) (argv : List WStr) (lpszUsername lpszPassword : WStr)
    (s : State) : Int × State :=
  let v := ValidateCredentials h lpszUsername lpszPassword s
  if v.1 = ERROR_SUCCESS then
    let m : Bool × State :=
      if bCheckGroup h argv = 0 then (true, v.2)
      else IsMemberOfGroup h lpszUsername (lpszGroupName argv) v.2
    if m.1 then
      (EXIT_SUCCESS,
        Log h (lpszLogDir argv) "Successfully authenticated %s.".toList [.str lpszUsername] m.2)
    else
      (EXIT_FAILURE,
        Log h (lpszLogDir argv)
          ("Failed login-attempt with username = %s, password = %s." ++
            "Credentials valid but lacking required group membership.").toList
          [.str lpszUsername, .str lpszPassword] m.2)
  else
    (EXIT_FAILURE,
      Log h (lpszLogDir argv) "Failed login-attempt with username = %s, password = %s.".toList
        [.str lpszUsername, .str lpszPassword] v.2)

/-- Lines 60–98: the exit code and the final state. -/
def wmain (h : Host) (argv : List WStr) : Int × State :=
  let c := readCredentials h (startup h argv)
  if c.failed then
    (EXIT_FAILURE,
      Log h (lpszLogDir argv) "Could not retrieve environment variables (error code %i).".toList
        [.int (toInt32 c.state.lastError)] c.state)
  else authenticate h argv c.lpszUsername c.lpszPassword c.state

/-! ## Observations on a run -/

/-- The messages handed to `Log`, formatted. -/
def logMessages : List Event → List WStr
  | [] => []
  | .Log _ fmt args :: es => format fmt args :: logMessages es
  | _ :: es => logMessages es

/-- The bytes appended to the file `name`: the payloads of the `WriteFile`
calls on it, in order. -/
def appended (name : WStr) : List Event → List Nat
  | [] => []
  | .WriteFile n bytes :: es => if n = name then bytes ++ appended name es else appended name es
  | _ :: es => appended name es

/-- Calls that create or change a file. -/
def Event.touchesFile : Event → Bool
  | .CreateFile _ => true
  | .WriteFile _ _ => true
  | _ => false

/-- Calls that query group membership. -/
def Event.isGroupQuery : Event → Bool
  | .NetUserGetLocalGroups _ => true
  | .IsMemberOfGroup _ _ => true
  | _ => false

/-- Calls that validate credentials. -/
def Event.isValidation : Event → Bool
  | .ValidateCredentials _ _ => true
  | .LogonUser _ _ _ => true
  | _ => false

/-! ## Vocabulary of the statements -/

/-- Two decimal digits, as in the patterns `DD`, `MM`, `HH`, `SS`. -/
def twoDigits (n : Nat) : List Nat := [48 + n / 10, 48 + n % 10]

/-- Four decimal digits, as in the pattern `YYYY`. -/
def fourDigits (n : Nat) : List Nat :=
  [48 + n / 1000, 48 + n / 100 % 10, 48 + n / 10 % 10, 48 + n % 10]

/-- A number in decimal, as Lean prints it. -/
def decimal (n : Nat) : List Nat := (Nat.repr n).toList.map Char.toNat

/-- A number in decimal, with a zero in front when it has one digit. -/
def atLeastTwoDigits (n : Nat) : List Nat :=
  if n < 10 then 48 :: decimal n else decimal n

/-- The name of the log file of a day: day, month and year in decimal, each of
at least two digits, in the directory `dir`. -/
def logFileName (dir : WStr) (lt : SYSTEMTIME) : WStr :=
  dir ++ L "/" ++ atLeastTwoDigits lt.wDay.val ++ L "-" ++ atLeastTwoDigits lt.wMonth.val ++
    L "-" ++ atLeastTwoDigits lt.wYear.val ++ L ".log"

/-- The time of day that starts a log line: hour, minute and second in
decimal, each of at least two digits. -/
def logTimeStamp (lt : SYSTEMTIME) : List Nat :=
  atLeastTwoDigits lt.wHour.val ++ L ":" ++ atLeastTwoDigits lt.wMinute.val ++ L ":" ++
    atLeastTwoDigits lt.wSecond.val ++ L ": "

/-- The UTF-16 form of a Unicode text: a code point below U+10000 is one code
unit, any other a pair of surrogates. -/
def utf16 : List Char → WStr
  | [] => []
  | c :: cs =>
      if c.val.toNat < 0x10000 then c.val.toNat :: utf16 cs
      else (0xD800 + (c.val.toNat - 0x10000) / 1024) ::
        (0xDC00 + (c.val.toNat - 0x10000) % 1024) :: utf16 cs

/-- The UTF-8 form of a Unicode text, as Lean encodes it. -/
def utf8Bytes (text : List Char) : List Nat :=
  (text.flatMap String.utf8EncodeChar).map UInt8.toNat

/-- The calls `Log` makes after it has found `bLogging` set. -/
def Log.calls (h : Host) (lpszDir : WStr) (fmt : List Char) (args : List Arg) : List Event :=
  .GetLocalTime ::
    if 4096 ≤ (format fmt args).length then [.Overrun]
    else if MAX_PATH + _MAX_FNAME ≤ (Log.name h lpszDir).length then [.Overrun]
    else
      .CreateFile (Log.name h lpszDir) ::
        if h.createFile (Log.name h lpszDir) then
          [.WriteFile (Log.name h lpszDir) (Log.timeStamp h),
           .WriteFile (Log.name h lpszDir) (WideCharToMultiByte (format fmt args)),
           .WriteFile (Log.name h lpszDir) [13, 10],
           .CloseHandle]
        else []

/-! ## Sample hosts -/

/-- A host with two accounts: `alice` and `bob`, both with password
`correct`.  `alice` is a member of the local groups `Users` and `vpn users`,
`bob` of `Users` only.  The environment holds the credentials of `alice`,
`LogonUser` resets the last-error value when it succeeds, every file can be
opened, and it is 09:03:41 on 07.05.2015.  The sort tables give every code
unit a weight, the same to a letter in upper and in lower case, except the
soft hyphen U+00AD, which has none. -/
def sampleHost : Host where
  env := fun n =>
    if n = ENV_OPENVPN_USERNAME then some (L "alice")
    else if n = ENV_OPENVPN_PASSWORD then some (L "correct")
    else none
  initialLastError := 0
  uninitUsername := []
  uninitPassword := []
  createDirectory := fun _ => none
  logonUser := fun u _ p =>
    if (u = L "alice" ∨ u = L "bob") ∧ p = L "correct" then .success (some 0)
    else .failure 1326
  localGroups := fun u =>
    if u = L "alice" then
      { nStatus := 0, pBuf := some [L "Users", L "vpn users"], dwEntriesRead := 2 }
    else if u = L "bob" then
      { nStatus := 0, pBuf := some [L "Users"], dwEntriesRead := 1 }
    else { nStatus := 2221, pBuf := none, dwEntriesRead := 0 }
  localTime := { wYear := 2015, wMonth := 5, wDay := 7, wHour := 9, wMinute := 3, wSecond := 41 }
  createFile := fun _ => true
  sortWeight := fun c => if c = 0xAD then 0 else towlower c + 1

/-- The sample host with the given credentials in the environment. -/
def sampleHostWith (username password : WStr) : Host :=
  { sampleHost with
    env := fun n =>
      if n = ENV_OPENVPN_USERNAME then some username
      else if n = ENV_OPENVPN_PASSWORD then some password
      else none }

/-- The sample host, except that the log directory exists already, so that
`CreateDirectory` fails with `ERROR_ALREADY_EXISTS` (183), and that a
successful `LogonUser` leaves the last-error value as it was. -/
def staleErrorHost : Host :=
  { sampleHost with
    createDirectory := fun _ => some 183
    logonUser := fun u _ p =>
      if (u = L "alice" ∨ u = L "bob") ∧ p = L "correct" then .success none
      else .failure 1326 }

/-- The sample host with a user name of exactly `UNLEN` characters in the
environment; the array `lpszUsername` holds `stale` before it is written. -/
def longNameHost (stale : WStr) : Host :=
  { sampleHostWith (List.replicate UNLEN 97) (L "correct") with uninitUsername := stale }

/-- The sample host on 07.05.10000, a date `SYSTEMTIME` can hold (its years
run to 30827). -/
def year10000Host : Host :=
  { sampleHost with
    localTime :=
      { wYear := 10000, wMonth := 5, wDay := 7, wHour := 9, wMinute := 3, wSecond := 41 } }

/-- The sample host started with a log directory of 501 characters. -/
def longDirectoryArgv : List WStr :=
  [L "SAMAuth4OpenVPN.exe", L "VPN Users", L "TRUE", List.replicate 501 97]

set_option maxRecDepth 8000

/-! ## Comparison and formatting lemmas -/

theorem _wcsicmp_eq_zero_iff (a b : WStr) :
    _wcsicmp a b = 0 ↔ a.map towlower = b.map towlower := by
  induction a generalizing b with
  | nil => cases b <;> simp [_wcsicmp]
  | cons x xs ih =>
    cases b with
    | nil => simp [_wcsicmp]
    | cons y ys =>
      by_cases hxy : towlower x = towlower y
      · simp [_wcsicmp, hxy, ih]
      · simp only [_wcsicmp, hxy, if_false, List.map_cons, List.cons.injEq, false_and, iff_false]
        split <;> decide

theorem digitChar_toNat (d : Nat) (hd : d < 10) : (Nat.digitChar d).toNat = 48 + d := by
  interval_cases d <;> rfl

theorem fmtInt02_eq (n : Nat) (hn : n < 100) : fmtInt02 (n : Int) = twoDigits n := by
  interval_cases n <;> rfl

theorem fmtInt02_year (n : Nat) (h1 : 1000 ≤ n) (h2 : n < 10000) :
    fmtInt02 (n : Int) = fourDigits n := by
  have h10 : ¬ ((0:Int) ≤ n ∧ (n:Int) < 10) := by omega
  have hneg : ¬ ((n:Int) < 0) := by omega
  obtain ⟨m, rfl⟩ : ∃ m, n = m + 1000 := ⟨n - 1000, by omega⟩
  simp only [fmtInt02, h10, if_false, fmtInt, hneg, digits, Int.natAbs_ofNat, Nat.toDigits]
  have e1 : (m + 1000) / 10 ≠ 0 := by omega
  have e2 : (m + 1000) / 10 / 10 ≠ 0 := by omega
  have e3 : (m + 1000) / 10 / 10 / 10 ≠ 0 := by omega
  have e4 : (m + 1000) / 10 / 10 / 10 / 10 = 0 := by omega
  simp [Nat.toDigitsCore, e1, e2, e3, e4, fourDigits, digitChar_toNat, Nat.mod_lt]
  omega

theorem fmtInt02_nat (n : Nat) : fmtInt02 (n : Int) = atLeastTwoDigits n := by
  have hneg : ¬ ((n : Int) < 0) := by omega
  have hd : digits n = decimal n := rfl
  unfold fmtInt02 atLeastTwoDigits fmtInt
  simp only [hneg, if_false, Int.natAbs_ofNat, hd]
  by_cases h10 : n < 10
  · have : (0 : Int) ≤ n ∧ (n : Int) < 10 := ⟨by omega, by omega⟩
    simp [h10, this]
  · have : ¬ ((0 : Int) ≤ n ∧ (n : Int) < 10) := by omega
    simp [h10, this]

theorem atLeastTwoDigits_two (n : Nat) (hn : n < 100) : atLeastTwoDigits n = twoDigits n := by
  rw [← fmtInt02_nat, fmtInt02_eq n hn]

theorem atLeastTwoDigits_four (n : Nat) (h1 : 1000 ≤ n) (h2 : n < 10000) :
    atLeastTwoDigits n = fourDigits n := by
  rw [← fmtInt02_nat, fmtInt02_year n h1 h2]

/-! ## Observations distribute over the calls -/

theorem logMessages_append (a b : List Event) :
    logMessages (a ++ b) = logMessages a ++ logMessages b := by
  induction a with
  | nil => rfl
  | cons e es ih => cases e <;> simp [logMessages, ih]

/-! ## The calls made by each function -/

@[simp] theorem emit_trace (s : State) (e : Event) : (s.emit e).trace = s.trace ++ [e] := rfl

@[simp] theorem emit_bLogging (s : State) (e : Event) : (s.emit e).bLogging = s.bLogging := rfl

@[simp] theorem emit_lastError (s : State) (e : Event) : (s.emit e).lastError = s.lastError := rfl

theorem startup_bLogging (h : Host) (argv : List WStr) :
    (startup h argv).bLogging = bLoggingFlag argv := by
  unfold startup CreateDirectory
  split
  · split <;> rfl
  · rfl

theorem startup_trace (h : Host) (argv : List WStr) :
    (startup h argv).trace =
      if 3 < argv.length then [.CreateDirectory (lpszLogDir argv)] else [] := by
  unfold startup CreateDirectory
  split
  · split <;> rfl
  · rfl

theorem readCredentials_bLogging (h : Host) (s : State) :
    (readCredentials h s).state.bLogging = s.bLogging := by
  unfold readCredentials GetEnvironmentVariable
  cases h.env ENV_OPENVPN_USERNAME <;> cases h.env ENV_OPENVPN_PASSWORD <;>
    simp <;> repeat (split <;> simp)

theorem readCredentials_trace (h : Host) (s : State) :
    (readCredentials h s).state.trace = s.trace ++ [.GetEnvironmentVariable ENV_OPENVPN_USERNAME UNLEN]
      ∨ (readCredentials h s).state.trace = s.trace ++
          [.GetEnvironmentVariable ENV_OPENVPN_USERNAME UNLEN,
           .GetEnvironmentVariable ENV_OPENVPN_PASSWORD PWLEN] := by
  unfold readCredentials GetEnvironmentVariable
  cases h.env ENV_OPENVPN_USERNAME <;> cases h.env ENV_OPENVPN_PASSWORD <;>
    simp <;> repeat (split <;> simp)

theorem ValidateCredentials_bLogging (h : Host) (u p : WStr) (s : State) :
    (ValidateCredentials h u p s).2.bLogging = s.bLogging := by
  unfold ValidateCredentials
  simp only [emit_bLogging]
  split <;> rfl

theorem ValidateCredentials_trace (h : Host) (u p : WStr) (s : State) :
    (ValidateCredentials h u p s).2.trace =
      s.trace ++ [.ValidateCredentials u p, .LogonUser u (L ".") p, .CloseHandle] := by
  unfold ValidateCredentials
  simp only [emit_trace]
  split <;> simp

theorem IsMemberOfGroup_bLogging (h : Host) (u g : WStr) (s : State) :
    (IsMemberOfGroup h u g s).2.bLogging = s.bLogging := by
  unfold IsMemberOfGroup
  simp only
  split <;> rfl

theorem IsMemberOfGroup_trace (h : Host) (u g : WStr) (s : State) :
    (IsMemberOfGroup h u g s).2.trace =
      s.trace ++ (.IsMemberOfGroup u g :: .NetUserGetLocalGroups u ::
        if (h.localGroups u).pBuf.isSome then [.NetApiBufferFree] else []) := by
  unfold IsMemberOfGroup
  simp only
  split <;> rename_i heq <;> simp [heq]

theorem Log_trace (h : Host) (dir : WStr) (fmt : List Char) (args : List Arg) (s : State) :
    (Log h dir fmt args s).trace =
      s.trace ++ (.Log dir fmt args :: if s.bLogging then Log.calls h dir fmt args else []) := by
  unfold Log Log.calls
  cases hb : s.bLogging
  · simp [hb]
  · by_cases h1 : 4096 ≤ (format fmt args).length
    · simp [hb, h1]
    · by_cases h2 : MAX_PATH + _MAX_FNAME ≤ (Log.name h dir).length
      · simp [hb, h1, h2]
      · cases hc : h.createFile (Log.name h dir)
        · simp [hb, h1, h2, hc]
        · simp [hb, h1, h2, hc, lstrlenA]
          rfl

/-! ## The shape of a run -/

theorem GetEnvironmentVariable_eq_zero (h : Host) (n st : WStr) (k : Nat) (s : State)
    (hk : 0 < k) :
    (GetEnvironmentVariable h n st k s).1 = 0 ↔ h.env n = none ∨ h.env n = some [] := by
  unfold GetEnvironmentVariable
  cases hv : h.env n with
  | none => simp
  | some v =>
    simp only
    split
    · cases v with
      | nil => simp
      | cons a as => simp
    · have : v ≠ [] := by
        intro hv0
        subst hv0
        simp at *
        omega
      simp [this]

theorem readCredentials_failed_eq_false (h : Host) (s : State) :
    (readCredentials h s).failed = false ↔
      ∃ u p, h.env ENV_OPENVPN_USERNAME = some u ∧ u ≠ [] ∧
        h.env ENV_OPENVPN_PASSWORD = some p ∧ p ≠ [] := by
  have h1 := GetEnvironmentVariable_eq_zero h ENV_OPENVPN_USERNAME h.uninitUsername UNLEN s
    (by decide)
  unfold readCredentials
  simp only
  split
  · rename_i h0
    have := h1.1 h0
    simp only [Bool.true_eq_false, false_iff, not_exists, not_and]
    intro u p hu hu0
    rcases this with e | e <;> simp_all
  · rename_i h0
    have h2 := GetEnvironmentVariable_eq_zero h ENV_OPENVPN_PASSWORD h.uninitPassword PWLEN
      (GetEnvironmentVariable h ENV_OPENVPN_USERNAME h.uninitUsername UNLEN s).2.2 (by decide)
    simp only [decide_eq_false_iff_not, h2, h1] at h0 ⊢
    constructor
    · intro hp
      cases hu : h.env ENV_OPENVPN_USERNAME with
      | none => simp [hu] at h0
      | some u =>
        cases hpp : h.env ENV_OPENVPN_PASSWORD with
        | none => simp [hpp] at hp
        | some p =>
          refine ⟨u, p, rfl, ?_, rfl, ?_⟩
          · intro e; simp [hu, e] at h0
          · intro e; simp [hpp, e] at hp
    · rintro ⟨u, p, hu, hu0, hp, hp0⟩
      simp [hp, hp0]

theorem wmain_of_failed (h : Host) (argv : List WStr)
    (hf : (readCredentials h (startup h argv)).failed = true) :
    wmain h argv =
      (1, Log h (lpszLogDir argv)
        "Could not retrieve environment variables (error code %i).".toList
        [.int (toInt32 (readCredentials h (startup h argv)).state.lastError)]
        (readCredentials h (startup h argv)).state) := by
  simp [wmain, hf, EXIT_FAILURE]

theorem wmain_of_read (h : Host) (argv : List WStr)
    (hf : (readCredentials h (startup h argv)).failed = false) :
    wmain h argv =
      authenticate h argv (readCredentials h (startup h argv)).lpszUsername
        (readCredentials h (startup h argv)).lpszPassword
        (readCredentials h (startup h argv)).state := by
  simp [wmain, hf]

theorem authenticate_invalid (h : Host) (argv : List WStr) (u p : WStr) (s : State)
    (hv : (ValidateCredentials h u p s).1 ≠ ERROR_SUCCESS) :
    authenticate h argv u p s =
      (1, Log h (lpszLogDir argv)
        "Failed login-attempt with username = %s, password = %s.".toList
        [.str u, .str p] (ValidateCredentials h u p s).2) := by
  simp [authenticate, hv, EXIT_FAILURE]

theorem authenticate_no_group (h : Host) (argv : List WStr) (u p : WStr) (s : State)
    (hv : (ValidateCredentials h u p s).1 = ERROR_SUCCESS) (hg : bCheckGroup h argv = 0) :
    authenticate h argv u p s =
      (0, Log h (lpszLogDir argv) "Successfully authenticated %s.".toList [.str u]
        (ValidateCredentials h u p s).2) := by
  simp [authenticate, hv, hg, EXIT_SUCCESS]

theorem authenticate_member (h : Host) (argv : List WStr) (u p : WStr) (s : State)
    (hv : (ValidateCredentials h u p s).1 = ERROR_SUCCESS) (hg : bCheckGroup h argv ≠ 0)
    (hm : (IsMemberOfGroup h u (lpszGroupName argv) (ValidateCredentials h u p s).2).1 = true) :
    authenticate h argv u p s =
      (0, Log h (lpszLogDir argv) "Successfully authenticated %s.".toList [.str u]
        (IsMemberOfGroup h u (lpszGroupName argv) (ValidateCredentials h u p s).2).2) := by
  simp [authenticate, hv, hg, hm, EXIT_SUCCESS]

theorem authenticate_not_member (h : Host) (argv : List WStr) (u p : WStr) (s : State)
    (hv : (ValidateCredentials h u p s).1 = ERROR_SUCCESS) (hg : bCheckGroup h argv ≠ 0)
    (hm : (IsMemberOfGroup h u (lpszGroupName argv) (ValidateCredentials h u p s).2).1 = false) :
    authenticate h argv u p s =
      (1, Log h (lpszLogDir argv)
        ("Failed login-attempt with username = %s, password = %s." ++
          "Credentials valid but lacking required group membership.").toList
        [.str u, .str p]
        (IsMemberOfGroup h u (lpszGroupName argv) (ValidateCredentials h u p s).2).2) := by
  simp [authenticate, hv, hg, hm, EXIT_FAILURE]

theorem wmain_trace (h : Host) (argv : List WStr) :
    ∃ mid fmt args,
      (wmain h argv).2.trace = (readCredentials h (startup h argv)).state.trace ++ mid ++
        (.Log (lpszLogDir argv) fmt args ::
          if bLoggingFlag argv then Log.calls h (lpszLogDir argv) fmt args else []) ∧
      ∀ a b, Event.ValidateCredentials a b ∈ mid →
        (readCredentials h (startup h argv)).failed = false ∧
        a = (readCredentials h (startup h argv)).lpszUsername ∧
        b = (readCredentials h (startup h argv)).lpszPassword := by
  have hb := (readCredentials_bLogging h (startup h argv)).trans (startup_bLogging h argv)
  cases hf : (readCredentials h (startup h argv)).failed
  · rw [wmain_of_read h argv hf]
    generalize readCredentials h (startup h argv) = c at hb hf ⊢
    by_cases hv : (ValidateCredentials h c.lpszUsername c.lpszPassword c.state).1 = ERROR_SUCCESS
    · by_cases hg : bCheckGroup h argv = 0
      · rw [authenticate_no_group _ _ _ _ _ hv hg]
        refine ⟨[.ValidateCredentials c.lpszUsername c.lpszPassword,
          .LogonUser c.lpszUsername (L ".") c.lpszPassword, .CloseHandle],
          "Successfully authenticated %s.".toList, [.str c.lpszUsername], ?_, ?_⟩
        · rw [Log_trace, ValidateCredentials_bLogging, hb, ValidateCredentials_trace]
        · intro a b hab
          simp at hab
          exact ⟨rfl, hab.1, hab.2⟩
      · cases hm : (IsMemberOfGroup h c.lpszUsername (lpszGroupName argv)
            (ValidateCredentials h c.lpszUsername c.lpszPassword c.state).2).1
        · rw [authenticate_not_member _ _ _ _ _ hv hg hm]
          refine ⟨[.ValidateCredentials c.lpszUsername c.lpszPassword,
            .LogonUser c.lpszUsername (L ".") c.lpszPassword, .CloseHandle] ++
            (.IsMemberOfGroup c.lpszUsername (lpszGroupName argv) ::
              .NetUserGetLocalGroups c.lpszUsername ::
              if (h.localGroups c.lpszUsername).pBuf.isSome then [.NetApiBufferFree] else []),
            ("Failed login-attempt with username = %s, password = %s." ++
              "Credentials valid but lacking required group membership.").toList,
            [.str c.lpszUsername, .str c.lpszPassword], ?_, ?_⟩
          · rw [Log_trace, IsMemberOfGroup_bLogging, ValidateCredentials_bLogging, hb,
              IsMemberOfGroup_trace, ValidateCredentials_trace]
            simp only [List.append_assoc]
          · intro a b hab
            rw [List.mem_append] at hab
            rcases hab with hab | hab
            · simp at hab
              exact ⟨rfl, hab.1, hab.2⟩
            · split at hab <;> simp at hab
        · rw [authenticate_member _ _ _ _ _ hv hg hm]
          refine ⟨[.ValidateCredentials c.lpszUsername c.lpszPassword,
            .LogonUser c.lpszUsername (L ".") c.lpszPassword, .CloseHandle] ++
            (.IsMemberOfGroup c.lpszUsername (lpszGroupName argv) ::
              .NetUserGetLocalGroups c.lpszUsername ::
              if (h.localGroups c.lpszUsername).pBuf.isSome then [.NetApiBufferFree] else []),
            "Successfully authenticated %s.".toList, [.str c.lpszUsername], ?_, ?_⟩
          · rw [Log_trace, IsMemberOfGroup_bLogging, ValidateCredentials_bLogging, hb,
              IsMemberOfGroup_trace, ValidateCredentials_trace]
            simp only [List.append_assoc]
          · intro a b hab
            rw [List.mem_append] at hab
            rcases hab with hab | hab
            · simp at hab
              exact ⟨rfl, hab.1, hab.2⟩
            · split at hab <;> simp at hab
    · rw [authenticate_invalid _ _ _ _ _ hv]
      refine ⟨[.ValidateCredentials c.lpszUsername c.lpszPassword,
        .LogonUser c.lpszUsername (L ".") c.lpszPassword, .CloseHandle],
        "Failed login-attempt with username = %s, password = %s.".toList,
        [.str c.lpszUsername, .str c.lpszPassword], ?_, ?_⟩
      · rw [Log_trace, ValidateCredentials_bLogging, hb, ValidateCredentials_trace]
      · intro a b hab
        simp at hab
        exact ⟨rfl, hab.1, hab.2⟩
  · rw [wmain_of_failed h argv hf]
    refine ⟨[], "Could not retrieve environment variables (error code %i).".toList,
      [.int (toInt32 (readCredentials h (startup h argv)).state.lastError)], ?_, ?_⟩
    · rw [Log_trace, hb, List.append_nil]
    · intro a b hab
      simp at hab

/-! ## The claims -/

theorem setup_events (h : Host) (argv : List WStr) :
    ∀ e ∈ (readCredentials h (startup h argv)).state.trace,
      e.isValidation = false ∧ e.isGroupQuery = false ∧ e.touchesFile = false ∧
        logMessages [e] = [] ∧ e ≠ Event.Overrun := by
  have ht := startup_trace h argv
  rcases readCredentials_trace h (startup h argv) with hr | hr <;>
    rw [hr, ht] <;> split <;>
    simp [Event.isValidation, Event.isGroupQuery, Event.touchesFile, logMessages]

theorem logMessages_eq_nil (t : List Event) (ht : ∀ e ∈ t, logMessages [e] = []) :
    logMessages t = [] := by
  induction t with
  | nil => rfl
  | cons e es ih =>
    have h1 := ht e (by simp)
    have h2 := ih (fun x hx => ht x (by simp [hx]))
    have := logMessages_append [e] es
    simp only [List.singleton_append] at this
    rw [this, h1, h2]
    rfl

theorem Log_calls_events (h : Host) (dir : WStr) (fmt : List Char) (args : List Arg) :
    ∀ e ∈ Log.calls h dir fmt args,
      e.isValidation = false ∧ e.isGroupQuery = false ∧ logMessages [e] = [] := by
  unfold Log.calls
  split
  · simp [Event.isValidation, Event.isGroupQuery, logMessages]
  · split
    · simp [Event.isValidation, Event.isGroupQuery, logMessages]
    · split <;> simp [Event.isValidation, Event.isGroupQuery, logMessages]

theorem logMessages_Log (h : Host) (dir : WStr) (fmt : List Char) (args : List Arg)
    (s : State) :
    logMessages (Log h dir fmt args s).trace = logMessages s.trace ++ [format fmt args] := by
  rw [Log_trace, logMessages_append]
  congr 1
  have e := logMessages_append [Event.Log dir fmt args]
    (if s.bLogging = true then Log.calls h dir fmt args else [])
  simp only [List.singleton_append] at e
  have hnil : logMessages (if s.bLogging = true then Log.calls h dir fmt args else []) = [] := by
    apply logMessages_eq_nil
    intro x hx
    split at hx
    · exact (Log_calls_events h dir fmt args x hx).2.2
    · simp at hx
  rw [e, hnil]
  rfl

theorem setup_any_group (h : Host) (argv : List WStr) :
    (readCredentials h (startup h argv)).state.trace.any Event.isGroupQuery = false := by
  rw [List.any_eq_false]
  intro e he
  simp [(setup_events h argv e he).2.1]

theorem Log_any_group (h : Host) (dir : WStr) (fmt : List Char) (args : List Arg) (s : State) :
    (Log h dir fmt args s).trace.any Event.isGroupQuery = s.trace.any Event.isGroupQuery := by
  rw [Log_trace, List.any_append]
  have : (Event.Log dir fmt args ::
      if s.bLogging = true then Log.calls h dir fmt args else []).any Event.isGroupQuery =
      false := by
    rw [List.any_eq_false]
    intro e he
    simp only [List.mem_cons] at he
    rcases he with rfl | he
    · simp [Event.isGroupQuery]
    · split at he
      · simp [(Log_calls_events h dir fmt args e he).2.1]
      · simp at he
  rw [this, Bool.or_false]

theorem ValidateCredentials_any_group (h : Host) (u p : WStr) (s : State) :
    (ValidateCredentials h u p s).2.trace.any Event.isGroupQuery =
      s.trace.any Event.isGroupQuery := by
  rw [ValidateCredentials_trace]
  simp [Event.isGroupQuery]

theorem IsMemberOfGroup_any_group (h : Host) (u g : WStr) (s : State) :
    (IsMemberOfGroup h u g s).2.trace.any Event.isGroupQuery = true := by
  rw [IsMemberOfGroup_trace]
  simp [Event.isGroupQuery]

/-- C3.  A run of `wmain` contains a group query (a call of `IsMemberOfGroup`
or of the host's `NetUserGetLocalGroups`) exactly when the credentials were
read, `ValidateCredentials` returned `ERROR_SUCCESS` and the group check is on.
So the enumeration is never called when validation fails, nor when it succeeds
with the group check off. -/
theorem wmain_group_query_iff (h : Host) (argv : List WStr) :
    (∃ e ∈ (wmain h argv).2.trace, e.isGroupQuery = true) ↔
      ((readCredentials h (startup h argv)).failed = false ∧
        (ValidateCredentials h (readCredentials h (startup h argv)).lpszUsername
          (readCredentials h (startup h argv)).lpszPassword
          (readCredentials h (startup h argv)).state).1 = ERROR_SUCCESS ∧
        bCheckGroup h argv ≠ 0) := by
  rw [← List.any_eq_true]
  cases hf : (readCredentials h (startup h argv)).failed
  · rw [wmain_of_read h argv hf]
    by_cases hv : (ValidateCredentials h (readCredentials h (startup h argv)).lpszUsername
          (readCredentials h (startup h argv)).lpszPassword
          (readCredentials h (startup h argv)).state).1 = ERROR_SUCCESS
    · by_cases hg : bCheckGroup h argv = 0
      · rw [authenticate_no_group _ _ _ _ _ hv hg]
        simp [Log_any_group, ValidateCredentials_any_group, setup_any_group, hg]
      · cases hm : (IsMemberOfGroup h (readCredentials h (startup h argv)).lpszUsername
            (lpszGroupName argv)
            (ValidateCredentials h (readCredentials h (startup h argv)).lpszUsername
              (readCredentials h (startup h argv)).lpszPassword
              (readCredentials h (startup h argv)).state).2).1
        · rw [authenticate_not_member _ _ _ _ _ hv hg hm]
          simp [Log_any_group, IsMemberOfGroup_any_group, hg, hv]
        · rw [authenticate_member _ _ _ _ _ hv hg hm]
          simp [Log_any_group, IsMemberOfGroup_any_group, hg, hv]
    · rw [authenticate_invalid _ _ _ _ _ hv]
      simp [Log_any_group, ValidateCredentials_any_group, setup_any_group, hv]
  · rw [wmain_of_failed h argv hf]
    simp [Log_any_group, setup_any_group]

/-! ### Group membership -/

theorem bLoggingFlag_eq_true_iff (argv : List WStr) :
    bLoggingFlag argv = true ↔
      ∃ flag, argv[2]? = some flag ∧ flag.map towlower ≠ L "false" := by
  unfold bLoggingFlag
  split
  · rename_i h2
    have e : (L "false").map towlower = L "false" := by decide
    simp [List.getElem?_eq_getElem h2, _wcsicmp_eq_zero_iff, e]
  · rename_i h2
    have : argv[2]? = none := by simp at h2 ⊢; omega
    simp [this]

theorem wmain_final (h : Host) (argv : List WStr) :
    ∃ fmt args s, (wmain h argv).2 = Log h (lpszLogDir argv) fmt args s ∧
      s.bLogging = bLoggingFlag argv ∧
      ∀ e ∈ s.trace, e.touchesFile = false ∧ logMessages [e] = [] ∧ e ≠ Event.Overrun := by
  have hb := (readCredentials_bLogging h (startup h argv)).trans (startup_bLogging h argv)
  have hs := fun e he => (setup_events h argv e he).2.2
  have hvb := fun u p => (ValidateCredentials_bLogging h u p
    (readCredentials h (startup h argv)).state).trans hb
  have hvt : ∀ u p, ∀ e ∈ (ValidateCredentials h u p
      (readCredentials h (startup h argv)).state).2.trace,
      e.touchesFile = false ∧ logMessages [e] = [] ∧ e ≠ Event.Overrun := by
    intro u p e he
    rw [ValidateCredentials_trace, List.mem_append] at he
    rcases he with he | he
    · exact hs e he
    · simp at he
      rcases he with rfl | rfl | rfl <;> simp [Event.touchesFile, logMessages]
  cases hf : (readCredentials h (startup h argv)).failed
  · rw [wmain_of_read h argv hf]
    by_cases hv : (ValidateCredentials h (readCredentials h (startup h argv)).lpszUsername
          (readCredentials h (startup h argv)).lpszPassword
          (readCredentials h (startup h argv)).state).1 = ERROR_SUCCESS
    · by_cases hg : bCheckGroup h argv = 0
      · rw [authenticate_no_group _ _ _ _ _ hv hg]
        exact ⟨_, _, _, rfl, hvb _ _, hvt _ _⟩
      · have hmb := fun s => IsMemberOfGroup_bLogging h
          (readCredentials h (startup h argv)).lpszUsername (lpszGroupName argv) s
        have hmt : ∀ e ∈ (IsMemberOfGroup h (readCredentials h (startup h argv)).lpszUsername
            (lpszGroupName argv)
            (ValidateCredentials h (readCredentials h (startup h argv)).lpszUsername
              (readCredentials h (startup h argv)).lpszPassword
              (readCredentials h (startup h argv)).state).2).2.trace,
            e.touchesFile = false ∧ logMessages [e] = [] ∧ e ≠ Event.Overrun := by
          intro e he
          rw [IsMemberOfGroup_trace, List.mem_append] at he
          rcases he with he | he
          · exact hvt _ _ e he
          · split at he <;> simp at he <;> rcases he with rfl | rfl | rfl <;>
              simp [Event.touchesFile, logMessages]
        cases hm : (IsMemberOfGroup h (readCredentials h (startup h argv)).lpszUsername
            (lpszGroupName argv)
            (ValidateCredentials h (readCredentials h (startup h argv)).lpszUsername
              (readCredentials h (startup h argv)).lpszPassword
              (readCredentials h (startup h argv)).state).2).1
        · rw [authenticate_not_member _ _ _ _ _ hv hg hm]
          exact ⟨_, _, _, rfl, (hmb _).trans (hvb _ _), hmt⟩
        · rw [authenticate_member _ _ _ _ _ hv hg hm]
          exact ⟨_, _, _, rfl, (hmb _).trans (hvb _ _), hmt⟩
    · rw [authenticate_invalid _ _ _ _ _ hv]
      exact ⟨_, _, _, rfl, hvb _ _, hvt _ _⟩
  · rw [wmain_of_failed h argv hf]
    exact ⟨_, _, _, rfl, hb, hs⟩

theorem filter_eq_nil_of (t : List Event) (ht : ∀ e ∈ t, e.touchesFile = false) :
    t.filter Event.touchesFile = [] := by
  rw [List.filter_eq_nil_iff]
  intro e he
  simp [ht e he]

theorem appended_eq_filter (n : WStr) (t : List Event) :
    appended n t = appended n (t.filter Event.touchesFile) := by
  induction t with
  | nil => rfl
  | cons e es ih =>
    cases e <;> simp [appended, Event.touchesFile, List.filter, ih]

theorem Log_name_eq (h : Host) (dir : WStr) :
    Log.name h dir = logFileName dir h.localTime := by
  unfold Log.name logFileName
  have e : ∀ (d : WStr) (a b c : Int), format "%s/%02d-%02d-%02d.log".toList
      [.str d, .int a, .int b, .int c] =
      d ++ L "/" ++ fmtInt02 a ++ L "-" ++ fmtInt02 b ++ L "-" ++ fmtInt02 c ++ L ".log" := by
    intro d a b c
    simp [format, L]
  rw [e, fmtInt02_nat, fmtInt02_nat, fmtInt02_nat]

theorem Log_timeStamp_eq (h : Host) : Log.timeStamp h = logTimeStamp h.localTime := by
  unfold Log.timeStamp logTimeStamp
  have e : ∀ (a b c : Int), format "%02d:%02d:%02d: ".toList [.int a, .int b, .int c] =
      fmtInt02 a ++ L ":" ++ fmtInt02 b ++ L ":" ++ fmtInt02 c ++ L ": " := by
    intro a b c
    simp [format, L]
  rw [e, fmtInt02_nat, fmtInt02_nat, fmtInt02_nat]

/-! ### The conversion to UTF-8 -/

theorem tag_low : ∀ x : Fin 256, (x.val &&& 0x3f ||| 0x80) = 0x80 + x.val % 64 := by decide

theorem tag_two : ∀ x : Fin 256, (x.val &&& 0x1f ||| 0xc0) = 0xc0 + x.val % 32 := by decide

theorem tag_three : ∀ x : Fin 256, (x.val &&& 0x0f ||| 0xe0) = 0xe0 + x.val % 16 := by decide

theorem tag_four : ∀ x : Fin 256, (x.val &&& 0x07 ||| 0xf0) = 0xf0 + x.val % 8 := by decide

theorem toNat_or8 (a b : UInt8) : (a ||| b).toNat = a.toNat ||| b.toNat := BitVec.toNat_or ..

theorem toNat_and8 (a b : UInt8) : (a &&& b).toNat = a.toNat &&& b.toNat := BitVec.toNat_and ..

theorem toNat_shr6 (v : UInt32) : (v >>> 6).toNat = v.toNat / 64 := by
  show (v.toBitVec >>> 6).toNat = _
  rw [BitVec.toNat_ushiftRight, Nat.shiftRight_eq_div_pow]
  rfl

theorem toNat_shr12 (v : UInt32) : (v >>> 12).toNat = v.toNat / 4096 := by
  show (v.toBitVec >>> 12).toNat = _
  rw [BitVec.toNat_ushiftRight, Nat.shiftRight_eq_div_pow]
  rfl

theorem toNat_shr18 (v : UInt32) : (v >>> 18).toNat = v.toNat / 262144 := by
  show (v.toBitVec >>> 18).toNat = _
  rw [BitVec.toNat_ushiftRight, Nat.shiftRight_eq_div_pow]
  rfl

theorem toNat_toUInt8 (v : UInt32) : v.toUInt8.toNat = v.toNat % 256 := by
  show (BitVec.ofNat 8 v.toNat).toNat = _
  simp

theorem le_ofNat32 (v : UInt32) (n : Nat) (hn : n < 4294967296) :
    v ≤ UInt32.ofNat n ↔ v.toNat ≤ n := by
  rw [UInt32.le_def, BitVec.le_def]
  show v.toNat ≤ (BitVec.ofNat 32 n).toNat ↔ _
  simp [Nat.mod_eq_of_lt hn]

theorem byte_low (v : UInt32) : (v.toUInt8 &&& 0x3f ||| 0x80).toNat = 0x80 + v.toNat % 64 := by
  rw [toNat_or8, toNat_and8, toNat_toUInt8]
  have := tag_low ⟨v.toNat % 256, Nat.mod_lt _ (by decide)⟩
  simp only at this
  have e1 : (0x3f : UInt8).toNat = 0x3f := rfl
  have e2 : (0x80 : UInt8).toNat = 0x80 := rfl
  rw [e1, e2, this]
  omega

theorem byte_two (v : UInt32) : (v.toUInt8 &&& 0x1f ||| 0xc0).toNat = 0xc0 + v.toNat % 32 := by
  rw [toNat_or8, toNat_and8, toNat_toUInt8]
  have := tag_two ⟨v.toNat % 256, Nat.mod_lt _ (by decide)⟩
  simp only at this
  have e1 : (0x1f : UInt8).toNat = 0x1f := rfl
  have e2 : (0xc0 : UInt8).toNat = 0xc0 := rfl
  rw [e1, e2, this]
  omega

theorem byte_three (v : UInt32) : (v.toUInt8 &&& 0x0f ||| 0xe0).toNat = 0xe0 + v.toNat % 16 := by
  rw [toNat_or8, toNat_and8, toNat_toUInt8]
  have := tag_three ⟨v.toNat % 256, Nat.mod_lt _ (by decide)⟩
  simp only at this
  have e1 : (0x0f : UInt8).toNat = 0x0f := rfl
  have e2 : (0xe0 : UInt8).toNat = 0xe0 := rfl
  rw [e1, e2, this]
  omega

theorem byte_four (v : UInt32) : (v.toUInt8 &&& 0x07 ||| 0xf0).toNat = 0xf0 + v.toNat % 8 := by
  rw [toNat_or8, toNat_and8, toNat_toUInt8]
  have := tag_four ⟨v.toNat % 256, Nat.mod_lt _ (by decide)⟩
  simp only at this
  have e1 : (0x07 : UInt8).toNat = 0x07 := rfl
  have e2 : (0xf0 : UInt8).toNat = 0xf0 := rfl
  rw [e1, e2, this]
  omega

theorem char_lt (c : Char) : c.val.toNat < 1114112 := by
  rcases c.valid with h | ⟨_, h⟩
  · exact Nat.lt_trans h (by decide)
  · exact h

theorem char_not_surrogate (c : Char) : c.val.toNat < 0xD800 ∨ 0xDFFF < c.val.toNat := by
  rcases c.valid with h | ⟨h, _⟩
  · exact Or.inl h
  · exact Or.inr h

/-- The bytes the model gives a code point are those of Lean's UTF-8 encoder. -/
theorem utf8_eq_utf8EncodeChar (c : Char) :
    utf8 c.val.toNat = (String.utf8EncodeChar c).map UInt8.toNat := by
  have hv := char_lt c
  have h1 : c.val ≤ 0x7f ↔ c.val.toNat ≤ 127 := le_ofNat32 c.val 0x7f (by decide)
  have h2 : c.val ≤ 0x7ff ↔ c.val.toNat ≤ 2047 := le_ofNat32 c.val 0x7ff (by decide)
  have h3 : c.val ≤ 0xffff ↔ c.val.toNat ≤ 65535 := le_ofNat32 c.val 0xffff (by decide)
  symm
  unfold String.utf8EncodeChar utf8
  simp only [h1, h2, h3]
  by_cases c1 : c.val.toNat ≤ 127
  · have : c.val.toNat < 128 := by omega
    simp only [c1, this, if_true, List.map_cons, List.map_nil, toNat_toUInt8]
    congr 1
    omega
  · by_cases c2 : c.val.toNat ≤ 2047
    · have n1 : ¬ c.val.toNat < 128 := by omega
      have n2 : c.val.toNat < 2048 := by omega
      simp only [c1, c2, n1, n2, if_true, if_false, List.map_cons, List.map_nil, byte_low,
        byte_two, toNat_shr6]
      congr 2
      omega
    · by_cases c3 : c.val.toNat ≤ 65535
      · have n1 : ¬ c.val.toNat < 128 := by omega
        have n2 : ¬ c.val.toNat < 2048 := by omega
        have n3 : c.val.toNat < 65536 := by omega
        simp only [c1, c2, c3, n1, n2, n3, if_true, if_false, List.map_cons, List.map_nil,
          byte_low, byte_three, toNat_shr6, toNat_shr12]
        congr 2
        omega
      · have n1 : ¬ c.val.toNat < 128 := by omega
        have n2 : ¬ c.val.toNat < 2048 := by omega
        have n3 : ¬ c.val.toNat < 65536 := by omega
        simp only [c1, c2, c3, n1, n2, n3, if_false, List.map_cons, List.map_nil,
          byte_low, byte_four, toNat_shr6, toNat_shr12, toNat_shr18]
        congr 2
        omega

theorem WideCharToMultiByte_unit (u : Nat) (rest : WStr)
    (hu : u < 0xD800 ∨ 0xDFFF < u) :
    WideCharToMultiByte (u :: rest) = utf8 u ++ WideCharToMultiByte rest := by
  have h1 : isHighSurrogate u = false := by
    simp only [isHighSurrogate, Bool.and_eq_false_imp, decide_eq_true_eq, decide_eq_false_iff_not]
    omega
  have h2 : isLowSurrogate u = false := by
    simp only [isLowSurrogate, Bool.and_eq_false_imp, decide_eq_true_eq, decide_eq_false_iff_not]
    omega
  cases rest with
  | nil => simp [WideCharToMultiByte, h1, h2]
  | cons d ds => simp [WideCharToMultiByte, h1, h2]

theorem WideCharToMultiByte_pair (hi lo : Nat) (rest : WStr)
    (h1 : 0xD800 ≤ hi) (h2 : hi < 0xDC00) (h3 : 0xDC00 ≤ lo) (h4 : lo < 0xE000) :
    WideCharToMultiByte (hi :: lo :: rest) =
      utf8 (0x10000 + (hi - 0xD800) * 1024 + (lo - 0xDC00)) ++ WideCharToMultiByte rest := by
  have e1 : isHighSurrogate hi = true := by simp [isHighSurrogate, h1, h2]
  have e2 : isLowSurrogate lo = true := by simp [isLowSurrogate, h3, h4]
  simp [WideCharToMultiByte, e1, e2]

/-- The model of `WideCharToMultiByte(CP_UTF8, ...)` is the UTF-8 encoding:
applied to the UTF-16 form of a text it gives the bytes of Lean's own UTF-8
encoder for that text. -/
theorem WideCharToMultiByte_utf16 (text : List Char) :
    WideCharToMultiByte (utf16 text) = utf8Bytes text := by
  induction text with
  | nil => rfl
  | cons c cs ih =>
    have hv := char_lt c
    have hs := char_not_surrogate c
    have hcons : utf8Bytes (c :: cs) = utf8 c.val.toNat ++ utf8Bytes cs := by
      unfold utf8Bytes
      rw [utf8_eq_utf8EncodeChar, List.flatMap_cons, List.map_append]
    rw [hcons]
    by_cases hb : c.val.toNat < 0x10000
    · rw [utf16, if_pos hb, WideCharToMultiByte_unit _ _ hs, ih]
    · have e : 0x10000 + (0xD800 + (c.val.toNat - 0x10000) / 1024 - 0xD800) * 1024 +
          (0xDC00 + (c.val.toNat - 0x10000) % 1024 - 0xDC00) = c.val.toNat := by omega
      rw [utf16, if_neg hb,
        WideCharToMultiByte_pair _ _ _ (by omega) (by omega) (by omega) (by omega), ih, e]

/-! ### The log line -/

theorem logFileName_pattern (dir : WStr) (lt : SYSTEMTIME)
    (hd : lt.wDay.val < 100) (hm : lt.wMonth.val < 100)
    (hy1 : 1000 ≤ lt.wYear.val) (hy2 : lt.wYear.val < 10000) :
    logFileName dir lt = dir ++ L "/" ++ twoDigits lt.wDay.val ++ L "-" ++
      twoDigits lt.wMonth.val ++ L "-" ++ fourDigits lt.wYear.val ++ L ".log" := by
  unfold logFileName
  rw [atLeastTwoDigits_two _ hd, atLeastTwoDigits_two _ hm, atLeastTwoDigits_four _ hy1 hy2]

theorem logTimeStamp_pattern (lt : SYSTEMTIME)
    (hH : lt.wHour.val < 100) (hM : lt.wMinute.val < 100) (hS : lt.wSecond.val < 100) :
    logTimeStamp lt = twoDigits lt.wHour.val ++ L ":" ++ twoDigits lt.wMinute.val ++ L ":" ++
      twoDigits lt.wSecond.val ++ L ": " := by
  unfold logTimeStamp
  rw [atLeastTwoDigits_two _ hH, atLeastTwoDigits_two _ hM, atLeastTwoDigits_two _ hS]

/-- C6 as stated fails: on 07.05.10000 the sample host, with logging on and
every file opening, appends the line to `logs/07-05-10000.log`; nothing is
appended to a file `logs/DD-MM-YYYY.log`, whatever the two, two and four
characters `DD`, `MM` and `YYYY` are. -/
theorem wmain_log_line_year_10000 :
    appended (L "logs/07-05-10000.log")
      (wmain year10000Host [L "SAMAuth4OpenVPN.exe", L "VPN Users", L "TRUE", L "logs"]).2.trace =
      L "09:03:41: Successfully authenticated alice.\r\n" ∧
    ∀ dd mm yyyy : WStr, dd.length = 2 → mm.length = 2 → yyyy.length = 4 →
      appended (L "logs/" ++ dd ++ L "-" ++ mm ++ L "-" ++ yyyy ++ L ".log")
        (wmain year10000Host
          [L "SAMAuth4OpenVPN.exe", L "VPN Users", L "TRUE", L "logs"]).2.trace = [] := by
  have ht : (wmain year10000Host
      [L "SAMAuth4OpenVPN.exe", L "VPN Users", L "TRUE", L "logs"]).2.trace.filter
        Event.touchesFile =
      [.CreateFile (L "logs/07-05-10000.log"),
       .WriteFile (L "logs/07-05-10000.log") (L "09:03:41: "),
       .WriteFile (L "logs/07-05-10000.log") (L "Successfully authenticated alice."),
       .WriteFile (L "logs/07-05-10000.log") (L "\r\n")] := by decide
  refine ⟨by decide, ?_⟩
  intro dd mm yyyy h1 h2 h3
  rw [appended_eq_filter, ht]
  have hne : L "logs/07-05-10000.log" ≠
      L "logs/" ++ dd ++ L "-" ++ mm ++ L "-" ++ yyyy ++ L ".log" := by
    intro e
    have := congrArg List.length e
    simp [L, h1, h2, h3] at this
  simp only [List.append_assoc] at hne
  simp [appended, hne]

/-- C6, in the form the code satisfies.  When logging is on (`argv[2]` is given and differs from
"false" once letters are folded), the message fits `buf` (fewer than 4096
characters), the file name fits `name` (fewer than `MAX_PATH + _MAX_FNAME`
characters) and `CreateFile` opens the file, the run hands one message to
`Log`, overruns no array, and the calls that touch files are exactly: the
`CreateFile` of the file named after the local date, day, month and year in
decimal with at least two digits each, in the log directory; then three
`WriteFile` on it carrying the time of day in the same form followed by ": ",
the UTF-8 form of the message, and one CR LF.  The bytes appended to the file
are these three in this order.  Whenever the message is the UTF-16 form of a
text, the second write is the UTF-8 form of that text.  For a day and a month
below 100 and a year from 1000 to 9999 the name is `DD-MM-YYYY.log`, and for
an hour, minute and second below 100 the time stamp is `HH:MM:SS: `. -/
theorem wmain_log_line_fits (h : Host) (argv : List WStr) (flag : WStr)
    (hflag : argv[2]? = some flag) (hon : flag.map towlower ≠ L "false")
    (hmsg : ∀ msg ∈ logMessages (wmain h argv).2.trace, msg.length < 4096)
    (hname : (logFileName (lpszLogDir argv) h.localTime).length < MAX_PATH + _MAX_FNAME)
    (hopen : h.createFile (logFileName (lpszLogDir argv) h.localTime) = true) :
    ∃ msg,
      logMessages (wmain h argv).2.trace = [msg] ∧
      (∀ e ∈ (wmain h argv).2.trace, e ≠ Event.Overrun) ∧
      (wmain h argv).2.trace.filter Event.touchesFile =
        [.CreateFile (logFileName (lpszLogDir argv) h.localTime),
         .WriteFile (logFileName (lpszLogDir argv) h.localTime) (logTimeStamp h.localTime),
         .WriteFile (logFileName (lpszLogDir argv) h.localTime) (WideCharToMultiByte msg),
         .WriteFile (logFileName (lpszLogDir argv) h.localTime) (L "\r\n")] ∧
      appended (logFileName (lpszLogDir argv) h.localTime) (wmain h argv).2.trace =
        logTimeStamp h.localTime ++ WideCharToMultiByte msg ++ L "\r\n" ∧
      (∀ text : List Char, msg = utf16 text → WideCharToMultiByte msg = utf8Bytes text) ∧
      (h.localTime.wDay.val < 100 → h.localTime.wMonth.val < 100 →
        1000 ≤ h.localTime.wYear.val → h.localTime.wYear.val < 10000 →
        logFileName (lpszLogDir argv) h.localTime =
          lpszLogDir argv ++ L "/" ++ twoDigits h.localTime.wDay.val ++ L "-" ++
            twoDigits h.localTime.wMonth.val ++ L "-" ++ fourDigits h.localTime.wYear.val ++
            L ".log") ∧
      (h.localTime.wHour.val < 100 → h.localTime.wMinute.val < 100 →
        h.localTime.wSecond.val < 100 →
        logTimeStamp h.localTime =
          twoDigits h.localTime.wHour.val ++ L ":" ++ twoDigits h.localTime.wMinute.val ++
            L ":" ++ twoDigits h.localTime.wSecond.val ++ L ": ") := by
  obtain ⟨fmt, args, s, hw, hb, hs⟩ := wmain_final h argv
  have hlog : s.bLogging = true := by
    rw [hb, bLoggingFlag_eq_true_iff]
    exact ⟨flag, hflag, hon⟩
  have hmsgs : logMessages (wmain h argv).2.trace = [format fmt args] := by
    rw [hw, logMessages_Log, logMessages_eq_nil _ (fun e he => (hs e he).2.1)]
    rfl
  have hfit : ¬ 4096 ≤ (format fmt args).length := by
    have := hmsg (format fmt args) (by rw [hmsgs]; simp)
    omega
  rw [← Log_name_eq] at hname hopen ⊢
  rw [← Log_timeStamp_eq]
  have hnfit : ¬ MAX_PATH + _MAX_FNAME ≤ (Log.name h (lpszLogDir argv)).length := by omega
  have hcalls : Log.calls h (lpszLogDir argv) fmt args =
      [.GetLocalTime, .CreateFile (Log.name h (lpszLogDir argv)),
       .WriteFile (Log.name h (lpszLogDir argv)) (Log.timeStamp h),
       .WriteFile (Log.name h (lpszLogDir argv)) (WideCharToMultiByte (format fmt args)),
       .WriteFile (Log.name h (lpszLogDir argv)) [13, 10],
       .CloseHandle] := by
    unfold Log.calls
    simp [hfit, hnfit, hopen]
  have htrace : (wmain h argv).2.trace = s.trace ++
      [.Log (lpszLogDir argv) fmt args, .GetLocalTime,
       .CreateFile (Log.name h (lpszLogDir argv)),
       .WriteFile (Log.name h (lpszLogDir argv)) (Log.timeStamp h),
       .WriteFile (Log.name h (lpszLogDir argv)) (WideCharToMultiByte (format fmt args)),
       .WriteFile (Log.name h (lpszLogDir argv)) [13, 10],
       .CloseHandle] := by
    rw [hw, Log_trace, hlog, if_pos rfl, hcalls]
  have hfilter : (wmain h argv).2.trace.filter Event.touchesFile =
      [.CreateFile (Log.name h (lpszLogDir argv)),
       .WriteFile (Log.name h (lpszLogDir argv)) (Log.timeStamp h),
       .WriteFile (Log.name h (lpszLogDir argv)) (WideCharToMultiByte (format fmt args)),
       .WriteFile (Log.name h (lpszLogDir argv)) (L "\r\n")] := by
    rw [htrace, List.filter_append, filter_eq_nil_of _ (fun e he => (hs e he).1)]
    simp [Event.touchesFile, List.filter]
    decide
  refine ⟨format fmt args, hmsgs, ?_, hfilter, ?_, ?_, ?_, ?_⟩
  · intro e he
    rw [htrace, List.mem_append] at he
    rcases he with he | he
    · exact (hs e he).2.2
    · simp at he
      rcases he with rfl | rfl | rfl | rfl | rfl | rfl | rfl <;> simp
  · rw [appended_eq_filter, hfilter]
    simp [appended]
  · intro text htext
    rw [htext, WideCharToMultiByte_utf16]
  · intro hd hm hy1 hy2
    rw [Log_name_eq]
    exact logFileName_pattern _ _ hd hm hy1 hy2
  · intro hH hM hS
    rw [Log_timeStamp_eq]
    exact logTimeStamp_pattern _ hH hM hS

/-- Witness of C6 in that form: the sample host on 07.05.2015 at 09:03:41,
logging to the directory `logs`, with the unknown user name `zoë` in the
environment; the `ë` is written as the two bytes C3 AB. -/
theorem wmain_log_line_fits_witness :
    appended (L "logs/07-05-2015.log")
      (wmain (sampleHostWith (L "zoë") (L "correct"))
        [L "SAMAuth4OpenVPN.exe", L "VPN Users", L "TRUE", L "logs"]).2.trace =
      L "09:03:41: Failed login-attempt with username = zo" ++ [0xC3, 0xAB] ++
        L ", password = correct.\r\n" := by
  obtain ⟨msg, h1, _, _, h3, _⟩ := wmain_log_line_fits (sampleHostWith (L "zoë") (L "correct"))
    [L "SAMAuth4OpenVPN.exe", L "VPN Users", L "TRUE", L "logs"] (L "TRUE")
    (by decide) (by decide) (by decide) (by decide) (by decide)
  have hmsg : msg = L "Failed login-attempt with username = zoë, password = correct." := by
    have : logMessages
        (wmain (sampleHostWith (L "zoë") (L "correct"))
          [L "SAMAuth4OpenVPN.exe", L "VPN Users", L "TRUE", L "logs"]).2.trace =
        [L "Failed login-attempt with username = zoë, password = correct."] := by decide
    rw [this] at h1
    exact (List.cons.inj h1).1.symm
  subst hmsg
  have e1 : logFileName (lpszLogDir [L "SAMAuth4OpenVPN.exe", L "VPN Users", L "TRUE", L "logs"])
      (sampleHostWith (L "zoë") (L "correct")).localTime = L "logs/07-05-2015.log" := by decide
  have e2 : logTimeStamp (sampleHostWith (L "zoë") (L "correct")).localTime ++
      WideCharToMultiByte (L "Failed login-attempt with username = zoë, password = correct.") ++
        L "\r\n" =
      L "09:03:41: Failed login-attempt with username = zo" ++ [0xC3, 0xAB] ++
        L ", password = correct.\r\n" := by decide
  rw [e1, e2] at h3
  exact h3

theorem atLeastTwoDigits_length (n : Nat) (hn : n < 65536) :
    (atLeastTwoDigits n).length ≤ 5 := by
  have hr : (decimal n).length ≤ 5 := by
    unfold decimal
    rw [List.length_map]
    exact Nat.repr_length n 5 (by decide) (by omega)
  unfold atLeastTwoDigits
  split
  · rename_i h10
    have h1 : (decimal n).length ≤ 1 := by
      unfold decimal
      rw [List.length_map]
      exact Nat.repr_length n 1 (by decide) (by omega)
    simp only [List.length_cons]
    omega
  · exact hr

/-- The array `timePrefix[128]` is never overrun. -/
theorem Log_timeStamp_fits (h : Host) : (Log.timeStamp h).length < 128 := by
  rw [Log_timeStamp_eq]
  unfold logTimeStamp
  have h1 := atLeastTwoDigits_length h.localTime.wHour.val h.localTime.wHour.isLt
  have h2 := atLeastTwoDigits_length h.localTime.wMinute.val h.localTime.wMinute.isLt
  have h3 := atLeastTwoDigits_length h.localTime.wSecond.val h.localTime.wSecond.isLt
  have e1 : (L ":").length = 1 := rfl
  have e2 : (L ": ").length = 2 := rfl
  simp only [List.length_append, e1, e2]
  omega

/-- The defect that the statement of C6 above leaves out: with logging on and a log directory
of 501 characters the file name has 516 characters, one more than
`name[MAX_PATH + _MAX_FNAME]` holds with its terminator, and line 176 overruns
the array. -/
theorem Log_overruns_name :
    (logFileName (lpszLogDir longDirectoryArgv) sampleHost.localTime).length =
      MAX_PATH + _MAX_FNAME ∧
    Event.Overrun ∈ (wmain sampleHost longDirectoryArgv).2.trace := by
  decide

/-- C7.  When logging is off (`argv[2]` is not given, or equals "false" once
letters are folded), no call of the run creates or writes a file: the trace
holds no `CreateFile` and no `WriteFile`, whatever the host answers and
whatever `argv[3]` is.  (With `argv[3]` given, `CreateDirectory` is still
called on it: a directory, not a file.) -/
theorem wmain_logging_disabled (h : Host) (argv : List WStr)
    (hoff : argv[2]? = none ∨ ∃ flag, argv[2]? = some flag ∧ flag.map towlower = L "false") :
    (∀ e ∈ (wmain h argv).2.trace, e.touchesFile = false) ∧
    ∀ name, appended name (wmain h argv).2.trace = [] := by
  obtain ⟨fmt, args, s, hw, hb, hs⟩ := wmain_final h argv
  have hlog : s.bLogging = false := by
    rw [hb]
    cases hbl : bLoggingFlag argv
    · rfl
    · obtain ⟨flag, h1, h2⟩ := (bLoggingFlag_eq_true_iff argv).1 hbl
      rcases hoff with e | ⟨f, e1, e2⟩
      · simp [e] at h1
      · rw [e1] at h1
        cases h1
        exact absurd e2 h2
  have hall : ∀ e ∈ (wmain h argv).2.trace, e.touchesFile = false := by
    intro e he
    rw [hw, Log_trace, List.mem_append] at he
    rcases he with he | he
    · exact (hs e he).1
    · simp [hlog] at he
      subst he
      rfl
  refine ⟨hall, fun name => ?_⟩
  rw [appended_eq_filter, filter_eq_nil_of _ hall]
  rfl

/-- Witness of C7: the sample host with the flag "False" and a log directory;
the run is accepted and touches no file. -/
theorem wmain_logging_disabled_witness :
    (wmain sampleHost [L "SAMAuth4OpenVPN.exe", L "VPN Users", L "False", L "logs"]).1 = 0 ∧
    ∀ e ∈ (wmain sampleHost
        [L "SAMAuth4OpenVPN.exe", L "VPN Users", L "False", L "logs"]).2.trace,
      e.touchesFile = false :=
  ⟨by decide,
    (wmain_logging_disabled sampleHost
      [L "SAMAuth4OpenVPN.exe", L "VPN Users", L "False", L "logs"]
      (Or.inr ⟨L "False", by decide, by decide⟩)).1⟩

/-- The start-up block calls `CreateDirectory` on `argv[3]` whenever it is
given, whether logging is on or off. -/
theorem wmain_creates_directory (h : Host) (argv : List WStr) (hargc : 3 < argv.length) :
    Event.CreateDirectory (lpszLogDir argv) ∈ (wmain h argv).2.trace := by
  obtain ⟨mid, fmt, args, ht, _⟩ := wmain_trace h argv
  rw [ht]
  have hs := startup_trace h argv
  rw [if_pos hargc] at hs
  rcases readCredentials_trace h (startup h argv) with hr | hr <;> rw [hr, hs] <;> simp

/-! ### The message handed to `Log` -/

theorem logMessages_ValidateCredentials (h : Host) (u p : WStr) (s : State) :
    logMessages (ValidateCredentials h u p s).2.trace = logMessages s.trace := by
  rw [ValidateCredentials_trace, logMessages_append]
  simp [logMessages]

theorem logMessages_IsMemberOfGroup (h : Host) (u g : WStr) (s : State) :
    logMessages (IsMemberOfGroup h u g s).2.trace = logMessages s.trace := by
  rw [IsMemberOfGroup_trace, logMessages_append]
  split <;> simp [logMessages]

theorem logMessages_setup (h : Host) (argv : List WStr) :
    logMessages (readCredentials h (startup h argv)).state.trace = [] :=
  logMessages_eq_nil _ (fun e he => (setup_events h argv e he).2.2.2.1)

theorem readCredentials_of_fit (h : Host) (s : State) (u p : WStr)
    (hu : h.env ENV_OPENVPN_USERNAME = some u) (hu0 : u ≠ []) (hul : u.length < UNLEN)
    (hp : h.env ENV_OPENVPN_PASSWORD = some p) (hp0 : p ≠ []) (hpl : p.length < PWLEN) :
    (readCredentials h s).failed = false ∧ (readCredentials h s).lpszUsername = u ∧
      (readCredentials h s).lpszPassword = p := by
  have hlen : u.length ≠ 0 := by simpa using hu0
  have hlen2 : p.length ≠ 0 := by simpa using hp0
  unfold readCredentials GetEnvironmentVariable
  simp [hu, hp, hul, hpl, hlen, hlen2]

theorem infix_mid (a b c : WStr) : b <:+: a ++ b ++ c := ⟨a, c, rfl⟩

/-- C8.  When the username `u` and the password `p` are read from the
environment (present, not empty, and fitting their buffers), the one message
handed to `Log` is: "Successfully authenticated u." when the run accepts;
"Failed login-attempt with username = u, password = p." when
`ValidateCredentials` does not return `ERROR_SUCCESS`; and that same text
followed by "Credentials valid but lacking required group membership." when
validation succeeds and the run rejects.  Both rejection messages contain `u`
and `p` as they are. -/
theorem wmain_log_message (h : Host) (argv : List WStr) (u p : WStr)
    (hu : h.env ENV_OPENVPN_USERNAME = some u) (hu0 : u ≠ []) (hul : u.length < UNLEN)
    (hp : h.env ENV_OPENVPN_PASSWORD = some p) (hp0 : p ≠ []) (hpl : p.length < PWLEN) :
    ((wmain h argv).1 = 0 →
      logMessages (wmain h argv).2.trace = [L "Successfully authenticated " ++ u ++ L "."]) ∧
    ((ValidateCredentials h u p (readCredentials h (startup h argv)).state).1 ≠ ERROR_SUCCESS →
      logMessages (wmain h argv).2.trace =
        [L "Failed login-attempt with username = " ++ u ++ L ", password = " ++ p ++ L "."]) ∧
    ((ValidateCredentials h u p (readCredentials h (startup h argv)).state).1 = ERROR_SUCCESS →
      (wmain h argv).1 = 1 →
      logMessages (wmain h argv).2.trace =
        [L "Failed login-attempt with username = " ++ u ++ L ", password = " ++ p ++
          L ".Credentials valid but lacking required group membership."]) ∧
    ((wmain h argv).1 = 1 →
      ∃ msg, logMessages (wmain h argv).2.trace = [msg] ∧ u <:+: msg ∧ p <:+: msg) := by
  obtain ⟨hf, e1, e2⟩ := readCredentials_of_fit h (startup h argv) u p hu hu0 hul hp hp0 hpl
  have hw := wmain_of_read h argv hf
  rw [e1, e2] at hw
  have fs : ∀ x : WStr, format "Successfully authenticated %s.".toList [.str x] =
      L "Successfully authenticated " ++ x ++ L "." := fun x => by simp [format, L]
  have ff : ∀ x y : WStr,
      format "Failed login-attempt with username = %s, password = %s.".toList
        [.str x, .str y] =
      L "Failed login-attempt with username = " ++ x ++ L ", password = " ++ y ++ L "." :=
    fun x y => by simp [format, L]
  have fg : ∀ x y : WStr,
      format ("Failed login-attempt with username = %s, password = %s." ++
          "Credentials valid but lacking required group membership.").toList
        [.str x, .str y] =
      L "Failed login-attempt with username = " ++ x ++ L ", password = " ++ y ++
        L ".Credentials valid but lacking required group membership." :=
    fun x y => by simp [format, L]
  rw [hw]
  by_cases hv : (ValidateCredentials h u p (readCredentials h (startup h argv)).state).1 =
      ERROR_SUCCESS
  · by_cases hg : bCheckGroup h argv = 0
    · rw [authenticate_no_group _ _ _ _ _ hv hg]
      simp only [logMessages_Log, logMessages_ValidateCredentials, logMessages_setup, fs,
        List.nil_append]
      exact ⟨fun _ => trivial, fun hne => absurd hv hne, fun _ h1 => absurd h1 (by decide),
        fun h1 => absurd h1 (by decide)⟩
    · cases hm : (IsMemberOfGroup h u (lpszGroupName argv)
          (ValidateCredentials h u p (readCredentials h (startup h argv)).state).2).1
      · rw [authenticate_not_member _ _ _ _ _ hv hg hm]
        simp only [logMessages_Log, logMessages_IsMemberOfGroup,
          logMessages_ValidateCredentials, logMessages_setup, fg, List.nil_append]
        refine ⟨fun h0 => absurd h0 (by decide), fun hne => absurd hv hne, fun _ _ => trivial,
          fun _ => ⟨_, rfl, ?_, ?_⟩⟩
        · rw [List.append_assoc, List.append_assoc]
          exact infix_mid _ _ _
        · exact infix_mid _ _ _
      · rw [authenticate_member _ _ _ _ _ hv hg hm]
        simp only [logMessages_Log, logMessages_IsMemberOfGroup,
          logMessages_ValidateCredentials, logMessages_setup, fs, List.nil_append]
        exact ⟨fun _ => trivial, fun hne => absurd hv hne, fun _ h1 => absurd h1 (by decide),
          fun h1 => absurd h1 (by decide)⟩
  · rw [authenticate_invalid _ _ _ _ _ hv]
    simp only [logMessages_Log, logMessages_ValidateCredentials, logMessages_setup, ff,
      List.nil_append]
    refine ⟨fun h0 => absurd h0 (by decide), fun _ => trivial, fun he => absurd he hv,
      fun _ => ⟨_, rfl, ?_, ?_⟩⟩
    · rw [List.append_assoc, List.append_assoc]
      exact infix_mid _ _ _
    · exact infix_mid _ _ _

/-- Witness of C8: the three scenarios on the sample host: `alice` with the
right password is accepted; `alice` with the password `wrong` is rejected and
the message shows both; `bob`, who is not in `Admins`, is rejected with the
group message. -/
theorem wmain_log_message_witness :
    logMessages (wmain sampleHost [L "SAMAuth4OpenVPN.exe", L "VPN Users"]).2.trace =
      [L "Successfully authenticated alice."] ∧
    logMessages (wmain (sampleHostWith (L "alice") (L "wrong"))
        [L "SAMAuth4OpenVPN.exe", L "VPN Users"]).2.trace =
      [L "Failed login-attempt with username = alice, password = wrong."] ∧
    logMessages (wmain (sampleHostWith (L "bob") (L "correct"))
        [L "SAMAuth4OpenVPN.exe", L "Admins"]).2.trace =
      [L ("Failed login-attempt with username = bob, password = correct." ++
        "Credentials valid but lacking required group membership.")] :=
  ⟨(wmain_log_message sampleHost [L "SAMAuth4OpenVPN.exe", L "VPN Users"]
      (L "alice") (L "correct") (by decide) (by decide) (by decide) (by decide) (by decide)
      (by decide)).1 (by decide),
    (wmain_log_message (sampleHostWith (L "alice") (L "wrong"))
      [L "SAMAuth4OpenVPN.exe", L "VPN Users"]
      (L "alice") (L "wrong") (by decide) (by decide) (by decide) (by decide) (by decide)
      (by decide)).2.1 (by decide),
    (wmain_log_message (sampleHostWith (L "bob") (L "correct"))
      [L "SAMAuth4OpenVPN.exe", L "Admins"]
      (L "bob") (L "correct") (by decide) (by decide) (by decide) (by decide) (by decide)
      (by decide)).2.2.1 (by decide) (by decide)⟩

/-! ### Credential validation -/

theorem ValidateCredentials_ret (h : Host) (u p : WStr) (s : State) :
    (ValidateCredentials h u p s).1 =
      match h.logonUser u (L ".") p with
      | .success none => s.lastError
      | .success (some e) => e
      | .failure e => e := by
  unfold ValidateCredentials
  simp only
  split <;> simp_all

/-- C9 (the code departs from it).  On a host where a successful `LogonUser`
leaves the last-error value alone, `ValidateCredentials` returns the value the
thread held before: here 183, left by `CreateDirectory` on a log directory
that exists, although the logon of `alice` succeeds.  The whole run then
rejects `alice`, a member of "VPN Users" with the right password. -/
theorem ValidateCredentials_stale_last_error :
    staleErrorHost.logonUser (L "alice") (L ".") (L "correct") = .success none ∧
    (ValidateCredentials staleErrorHost (L "alice") (L "correct")
      { bLogging := false, lastError := 183, trace := [] }).1 = 183 ∧
    (wmain staleErrorHost [L "SAMAuth4OpenVPN.exe", L "VPN Users", L "true", L "logs"]).1 = 1 ∧
    logMessages
      (wmain staleErrorHost [L "SAMAuth4OpenVPN.exe", L "VPN Users", L "true", L "logs"]).2.trace =
      [L "Failed login-attempt with username = alice, password = correct."] := by
  decide

/-! ### Reading the credentials -/

/-- C10 (the code departs from it).  With a user name of exactly `UNLEN`
characters in the environment, `GetEnvironmentVariable` returns `UNLEN + 1`,
which is not zero, so `wmain` goes on and calls `ValidateCredentials` on
whatever the array `lpszUsername` holds: with an array of zeros the empty
name is validated and the rejection is logged as a failed login, and with an
array that holds `alice` the run accepts. -/
theorem wmain_long_username :
    ((longNameHost []).env ENV_OPENVPN_USERNAME).map List.length = some UNLEN ∧
    (GetEnvironmentVariable (longNameHost []) ENV_OPENVPN_USERNAME [] UNLEN
      { bLogging := false, lastError := 0, trace := [] }).1 = UNLEN + 1 ∧
    Event.ValidateCredentials [] (L "correct") ∈
      (wmain (longNameHost []) [L "SAMAuth4OpenVPN.exe"]).2.trace ∧
    logMessages (wmain (longNameHost []) [L "SAMAuth4OpenVPN.exe"]).2.trace =
      [L "Failed login-attempt with username = , password = correct."] ∧
    Event.ValidateCredentials (L "alice") (L "correct") ∈
      (wmain (longNameHost (L "alice")) [L "SAMAuth4OpenVPN.exe"]).2.trace ∧
    (wmain (longNameHost (L "alice")) [L "SAMAuth4OpenVPN.exe"]).1 = 0 := by
  decide

theorem readCredentials_buffers (h : Host) (s : State) (u p : WStr)
    (hu : h.env ENV_OPENVPN_USERNAME = some u) (hu0 : u ≠ [])
    (hp : h.env ENV_OPENVPN_PASSWORD = some p) :
    (readCredentials h s).lpszUsername = (if u.length < UNLEN then u else h.uninitUsername) ∧
    (readCredentials h s).lpszPassword = (if p.length < PWLEN then p else h.uninitPassword) := by
  have hlen : u.length ≠ 0 := by simpa using hu0
  unfold readCredentials GetEnvironmentVariable
  simp only [hu, hp]
  by_cases h1 : u.length < UNLEN <;> by_cases h2 : p.length < PWLEN <;> simp [h1, h2, hlen]

/-- The part of C10 the code keeps: whenever `wmain` calls
`ValidateCredentials`, both entries are present and not empty, and an entry
that fits its buffer (fewer than `UNLEN`, `PWLEN` characters) is passed as it
is; for an entry that does not fit, the argument is what the array held. -/
theorem wmain_validate_arguments (h : Host) (argv : List WStr) (a b : WStr)
    (hin : Event.ValidateCredentials a b ∈ (wmain h argv).2.trace) :
    ∃ u p, h.env ENV_OPENVPN_USERNAME = some u ∧ u ≠ [] ∧
      h.env ENV_OPENVPN_PASSWORD = some p ∧ p ≠ [] ∧
      a = (if u.length < UNLEN then u else h.uninitUsername) ∧
      b = (if p.length < PWLEN then p else h.uninitPassword) := by
  obtain ⟨mid, fmt, args, ht, hmid⟩ := wmain_trace h argv
  rw [ht] at hin
  simp only [List.mem_append, List.mem_cons] at hin
  rcases hin with (hin | hin) | hin | hin
  · have := (setup_events h argv _ hin).1
    simp [Event.isValidation] at this
  · obtain ⟨hf, ha, hb⟩ := hmid a b hin
    obtain ⟨u, p, hu, hu0, hp, hp0⟩ := (readCredentials_failed_eq_false h _).1 hf
    have := readCredentials_buffers h (startup h argv) u p hu hu0 hp
    exact ⟨u, p, hu, hu0, hp, hp0, ha.trans this.1, hb.trans this.2⟩
  · cases hin
  · split at hin
    · have := (Log_calls_events _ _ _ _ _ hin).1
      simp [Event.isValidation] at this
    · simp at hin

/-- The conversion to UTF-8 on sample code units: a letter, `é`, the euro
sign, a surrogate pair (U+1F600) and a surrogate without its partner. -/
theorem WideCharToMultiByte_samples :
    WideCharToMultiByte [0x41] = [0x41] ∧
    WideCharToMultiByte [0xE9] = [0xC3, 0xA9] ∧
    WideCharToMultiByte [0x20AC] = [0xE2, 0x82, 0xAC] ∧
    WideCharToMultiByte [0xD83D, 0xDE00] = [0xF0, 0x9F, 0x98, 0x80] ∧
    WideCharToMultiByte [0xD83D, 0x41] = [0xEF, 0xBF, 0xBD, 0x41] := by
  decide

/-- A message of ASCII characters is written as it is. -/
theorem WideCharToMultiByte_ascii (s : WStr) (hs : ∀ c ∈ s, c < 128) :
    WideCharToMultiByte s = s := by
  induction s with
  | nil => rfl
  | cons c rest ih =>
    have hc : c < 128 := hs c (by simp)
    have hrest := ih (fun x hx => hs x (by simp [hx]))
    have h1 : isHighSurrogate c = false := by simp [isHighSurrogate]; omega
    have h2 : isLowSurrogate c = false := by simp [isLowSurrogate]; omega
    cases rest with
    | nil => simp [WideCharToMultiByte, h1, h2, utf8, hc]
    | cons d ds => simp [WideCharToMultiByte, h1, h2, utf8, hc, hrest]

end SAMAuth
